import Mathlib

/-!
Verification development for `bruter` (src/main.rs), a parallel brute-force
vanity SSH key searcher.  The worker body `guess` and the validation and
persistence code of `main` are embedded shallowly: strings are lists of
characters, the external `ssh-keygen` call is abstracted by the public-key
artifact text it produces, file-system and channel effects are recorded in an
explicit effect trace, and panics become an explicit `panicked` outcome.
-/

namespace Bruter

/-- Rust `str::split(c)` on a single delimiter character, over `List Char`.
`""` splits to `[""]`, consecutive delimiters produce empty pieces. -/
def splitChar (d : Char) : List Char → List (List Char)
  | [] => [[]]
  | c :: cs =>
    match splitChar d cs with
    | [] => [[]]
    | f :: rest => if c = d then [] :: f :: rest else (c :: f) :: rest

/-- Rust `char::to_ascii_lowercase`: map `A`-`Z` to `a`-`z`, leave every
other character unchanged. -/
def asciiLower (c : Char) : Char :=
  if 'A' ≤ c ∧ c ≤ 'Z' then Char.ofNat (c.toNat + 32) else c

/-- Rust `str::contains(needle)`: substring containment, scanning start
positions left to right. -/
def containsSub (hay needle : List Char) : Bool :=
  match hay with
  | [] => needle.isEmpty
  | _ :: t => needle.isPrefixOf hay || containsSub t needle

/-- The `for term in search_terms` loop of `guess` (main.rs lines 109-115):
return the first configured term contained in `word`, scanning the terms in
their configured order and stopping at the first hit. -/
def firstMatch (word : List Char) : List (List Char) → Option (List Char)
  | [] => none
  | term :: rest => if containsSub word term then some term else firstMatch word rest

/-- The ASCII-lowercased second space-separated field of the public-key
artifact text (main.rs lines 99-107). -/
def secondFieldLower (content : List Char) : List Char :=
  ((splitChar ' ' content).getD 1 []).map asciiLower

/-- The match test of `guess` (main.rs lines 98-115) applied to the public
artifact text: split on `' '`, panic (modelled as `Except.error`) unless there
are exactly 3 fields, otherwise report whether the lowercased second field
contains some configured term. -/
def matchTest (searchTerms : List (List Char)) (content : List Char) : Except String Bool :=
  let split := splitChar ' ' content
  if split.length ≠ 3 then
    Except.error "key does not have 3 parts how"
  else
    Except.ok (firstMatch ((split.getD 1 []).map asciiLower) searchTerms).isSome

/-- Observable side effects of one iteration of the worker loop, in program
order: the `ssh-keygen` invocation, the send on the result channel, the write
of `true` to the shared `finished` flag, the two file deletions, and the
progress report. -/
inductive Effect
  | keygen
  | send (n : Nat)
  | setFlagTrue
  | deletePub (n : Nat)
  | deletePriv (n : Nat)
  | report (counter : Nat)
deriving DecidableEq

/-- How one iteration of the worker loop ends: `stopped` models `return`,
`again` models falling through to the next loop iteration, `panicked` models
a Rust panic aborting the worker. -/
inductive IterResult
  | stopped
  | again
  | panicked (msg : String)
deriving DecidableEq

/-- Shared state after one iteration of the worker loop together with the
iteration's effect trace and outcome. -/
structure IterOut where
  flag : Bool
  counter : Nat
  effects : List Effect
  result : IterResult
deriving DecidableEq

/-- One iteration of the loop of `guess` (main.rs lines 78-127) for the worker
with slot index `number`.  `finished` and `counter` are the shared flag and
aggregate attempt counter on entry; `content` is the text the external
`ssh-keygen` invocation leaves in `<number>.pub` for this attempt.  The
timers of `State` and the log line of `print_details` are abstracted into the
`report` effect. -/
def guessIter (searchTerms : List (List Char)) (printEvery : Nat) (number : Nat)
    (finished : Bool) (counter : Nat) (content : List Char) : IterOut :=
  if finished then
    ⟨finished, counter, [], IterResult.stopped⟩
  else
    let split := splitChar ' ' content
    if split.length ≠ 3 then
      ⟨finished, counter, [Effect.keygen], IterResult.panicked "key does not have 3 parts how"⟩
    else
      let word := (split.getD 1 []).map asciiLower
      match firstMatch word searchTerms with
      | some _ =>
        ⟨true, counter, [Effect.keygen, Effect.send number, Effect.setFlagTrue],
          IterResult.stopped⟩
      | none =>
        let c := counter + 1
        if c % printEvery = 0 then
          ⟨finished, c,
            [Effect.keygen, Effect.deletePub number, Effect.deletePriv number, Effect.report c],
            IterResult.again⟩
        else
          ⟨finished, c, [Effect.keygen, Effect.deletePub number, Effect.deletePriv number],
            IterResult.again⟩

/-- Initial value of the shared `finished` flag (main.rs line 175). -/
def initialFinished : Bool := false

/-- Rust `str::is_ascii` on one character: code point below 128. -/
def isAsciiChar (c : Char) : Bool := c.toNat < 128

/-- Rust `str::is_ascii`: every character is ASCII. -/
def strIsAscii (s : List Char) : Bool := s.all isAsciiChar

/-- Rust `char::is_alphanumeric` (Unicode Alphabetic or Number).  Exact on
the ASCII range; the only non-ASCII character this development evaluates it
on is U+20AC EURO SIGN, a currency symbol, which Unicode classes as neither
Alphabetic nor Number, matching the `false` this definition returns. -/
def rustIsAlphanumeric (c : Char) : Bool :=
  ('a' ≤ c ∧ c ≤ 'z') ∨ ('A' ≤ c ∧ c ≤ 'Z') ∨ ('0' ≤ c ∧ c ≤ '9')

/-- Outcome of the search-string validation in `main`: either an error path
(`error!` log plus `process::exit(1)`, before any worker is spawned) or the
lowercased search-term list the workers receive. -/
inductive ConfigResult
  | exitError (msg : String)
  | ok (terms : List (List Char))
deriving DecidableEq

/-- The validation of `args.search` in `main` (main.rs lines 135-149):
reject when `split(',')` yields no pieces, reject when some piece is
non-ASCII and has a non-alphanumeric character, otherwise lowercase each
piece into the search-term list. -/
def validateSearch (search : List Char) : ConfigResult :=
  let split := splitChar ',' search
  if split.length = 0 then
    ConfigResult.exitError "search for something! try something like \"-s real,word,search\""
  else if split.any (fun item => !strIsAscii item && item.any (fun c => !rustIsAlphanumeric c)) then
    ConfigResult.exitError "make sure your search terms are alphanumeric"
  else
    ConfigResult.ok (split.map (fun s => s.map asciiLower))

/-- The two output copies performed by the coordinator. -/
inductive CopyOp
  | priv
  | pub
deriving DecidableEq

/-- The persistence step of `main` (main.rs lines 205-207):
`fs::copy(private_path, output)?` then `fs::copy(pub_path, output + ".pub")?`.
`privRes` and `pubRes` are the outcomes the file system would give each copy;
the returned list is the trace of copies actually attempted, in order, and
the `Except` is the value `main` propagates (`?` returns the first error
immediately). -/
def persistWinner (privRes pubRes : Except String Unit) :
    List CopyOp × Except String Unit :=
  match privRes with
  | Except.error e => ([CopyOp.priv], Except.error e)
  | Except.ok _ =>
    match pubRes with
    | Except.error e => ([CopyOp.priv, CopyOp.pub], Except.error e)
    | Except.ok _ => ([CopyOp.priv, CopyOp.pub], Except.ok ())

/-- Counter and number-of-reports view of the shared `State` (main.rs lines
47-64); the two timestamps only feed the log line and are abstracted away. -/
structure TrackOut where
  counter : Nat
  reports : Nat
deriving DecidableEq

/-- The critical section of `guess` (main.rs lines 120-126): increment the
shared counter and emit a report exactly on `print_every` boundaries. -/
def recordAttempt (printEvery : Nat) (s : TrackOut) : TrackOut :=
  if (s.counter + 1) % printEvery = 0 then ⟨s.counter + 1, s.reports + 1⟩
  else ⟨s.counter + 1, s.reports⟩

/-- Run a sequence of `recordAttempt` calls starting from state `s`; the list
carries the slot index of the worker making each call (the critical section
never looks at it — the mutex serialises the calls into this sequence). -/
def runAttemptsFrom (printEvery : Nat) (s : TrackOut) : List Nat → TrackOut
  | [] => s
  | _ :: ws => runAttemptsFrom printEvery (recordAttempt printEvery s) ws

/-- All recorded attempts from the initial `State` (counter 0, no report). -/
def runAttempts (printEvery : Nat) (ws : List Nat) : TrackOut :=
  runAttemptsFrom printEvery ⟨0, 0⟩ ws

/-- Parameters of one worker-loop iteration in a global interleaving: the
worker's term list, report interval and slot index, and the artifact text its
generation step produces. -/
structure StepIn where
  terms : List (List Char)
  printEvery : Nat
  number : Nat
  content : List Char

/-- A sequence of worker-loop iterations acting on the shared flag and
counter, in the order the interleaving serialises them. -/
def sysRun : List StepIn → Bool → Nat → Bool × Nat
  | [], flag, ctr => (flag, ctr)
  | s :: rest, flag, ctr =>
    let o := guessIter s.terms s.printEvery s.number flag ctr s.content
    sysRun rest o.flag o.counter

/-! ### Helper lemmas -/

theorem isPrefixOf_exists (l₁ l₂ : List Char) :
    l₁.isPrefixOf l₂ = true ↔ ∃ t, l₁ ++ t = l₂ := by
  induction l₁ generalizing l₂ with
  | nil => simp [List.isPrefixOf]
  | cons a as ih =>
    cases l₂ with
    | nil => simp [List.isPrefixOf]
    | cons b bs =>
      simp only [List.isPrefixOf, Bool.and_eq_true, beq_iff_eq, ih, List.cons_append,
        List.cons.injEq]
      constructor
      · rintro ⟨rfl, t, rfl⟩
        exact ⟨t, rfl, rfl⟩
      · rintro ⟨t, rfl, rfl⟩
        exact ⟨rfl, t, rfl⟩

theorem containsSub_nil_needle (hay : List Char) : containsSub hay [] = true := by
  cases hay <;> simp [containsSub, List.isPrefixOf]

theorem containsSub_iff (hay needle : List Char) :
    containsSub hay needle = true ↔ ∃ pre post, hay = pre ++ needle ++ post := by
  induction hay with
  | nil =>
    simp only [containsSub, List.isEmpty_iff]
    constructor
    · rintro rfl
      exact ⟨[], [], rfl⟩
    · rintro ⟨pre, post, h⟩
      have h2 := List.append_eq_nil.mp h.symm
      exact (List.append_eq_nil.mp h2.1).2
  | cons a t ih =>
    simp only [containsSub, Bool.or_eq_true, isPrefixOf_exists, ih]
    constructor
    · rintro (⟨post, h⟩ | ⟨pre, post, rfl⟩)
      · exact ⟨[], post, by simpa using h.symm⟩
      · exact ⟨a :: pre, post, by simp⟩
    · rintro ⟨pre, post, h⟩
      cases pre with
      | nil =>
        left
        exact ⟨post, by simpa using h.symm⟩
      | cons p ps =>
        right
        rw [List.cons_append, List.cons_append, List.cons.injEq] at h
        exact ⟨ps, post, by simpa using h.2⟩

theorem firstMatch_isSome_iff (word : List Char) (terms : List (List Char)) :
    (firstMatch word terms).isSome = true ↔ ∃ t ∈ terms, containsSub word t = true := by
  induction terms with
  | nil => simp [firstMatch]
  | cons a as ih =>
    cases h : containsSub word a with
    | true =>
      simp only [firstMatch, h, if_true, Option.isSome_some, true_iff]
      exact ⟨a, by simp, h⟩
    | false => simp [firstMatch, h, ih]

theorem firstMatch_first (word t : List Char) (l₂ : List (List Char)) :
    ∀ l₁ : List (List Char), (∀ u ∈ l₁, containsSub word u = false) →
      containsSub word t = true → firstMatch word (l₁ ++ t :: l₂) = some t := by
  intro l₁
  induction l₁ with
  | nil =>
    intro _ ht
    simp [firstMatch, ht]
  | cons a as ih =>
    intro hskip ht
    have ha : containsSub word a = false := hskip a (by simp)
    simp only [List.cons_append, firstMatch, ha, Bool.false_eq_true, if_false]
    exact ih (fun u hu => hskip u (by simp [hu])) ht

theorem splitChar_length_pos (d : Char) (s : List Char) : 0 < (splitChar d s).length := by
  induction s with
  | nil => simp [splitChar]
  | cons c cs ih =>
    simp only [splitChar]
    cases h : splitChar d cs with
    | nil => simp
    | cons f rest => by_cases hc : c = d <;> simp [hc]

theorem guessIter_finished (terms : List (List Char)) (pe num ctr : Nat)
    (content : List Char) :
    guessIter terms pe num true ctr content = ⟨true, ctr, [], IterResult.stopped⟩ := rfl

theorem guessIter_match (terms : List (List Char)) (pe num ctr : Nat) (content : List Char)
    (h3 : (splitChar ' ' content).length = 3)
    (hm : (firstMatch (secondFieldLower content) terms).isSome = true) :
    guessIter terms pe num false ctr content =
      ⟨true, ctr, [Effect.keygen, Effect.send num, Effect.setFlagTrue], IterResult.stopped⟩ := by
  obtain ⟨t, ht⟩ := Option.isSome_iff_exists.mp hm
  have ht' : firstMatch (List.map asciiLower ((splitChar ' ' content).getD 1 [])) terms =
      some t := ht
  simp only [guessIter]
  rw [if_neg Bool.false_ne_true, if_neg (by simp [h3]), ht']

theorem guessIter_nomatch (terms : List (List Char)) (pe num ctr : Nat) (content : List Char)
    (h3 : (splitChar ' ' content).length = 3)
    (hm : firstMatch (secondFieldLower content) terms = none) :
    guessIter terms pe num false ctr content =
      if (ctr + 1) % pe = 0 then
        ⟨false, ctr + 1,
          [Effect.keygen, Effect.deletePub num, Effect.deletePriv num, Effect.report (ctr + 1)],
          IterResult.again⟩
      else
        ⟨false, ctr + 1, [Effect.keygen, Effect.deletePub num, Effect.deletePriv num],
          IterResult.again⟩ := by
  have hm' : firstMatch (List.map asciiLower ((splitChar ' ' content).getD 1 [])) terms =
      none := hm
  simp only [guessIter]
  rw [if_neg Bool.false_ne_true, if_neg (by simp [h3]), hm']

theorem recordAttempt_div (p c : Nat) :
    recordAttempt p ⟨c, c / p⟩ = ⟨c + 1, (c + 1) / p⟩ := by
  unfold recordAttempt
  by_cases hd : p ∣ c + 1
  · rw [if_pos (Nat.dvd_iff_mod_eq_zero.mp hd), Nat.succ_div_of_dvd hd]
  · rw [if_neg fun h => hd (Nat.dvd_of_mod_eq_zero h), Nat.succ_div_of_not_dvd hd]

theorem runAttemptsFrom_spec (p : Nat) (ws : List Nat) :
    ∀ c, runAttemptsFrom p ⟨c, c / p⟩ ws = ⟨c + ws.length, (c + ws.length) / p⟩ := by
  induction ws with
  | nil =>
    intro c
    simp [runAttemptsFrom]
  | cons w ws ih =>
    intro c
    have e : c + 1 + ws.length = c + (ws.length + 1) := by omega
    simp only [runAttemptsFrom, recordAttempt_div, ih (c + 1), e, List.length_cons]

theorem runAttempts_spec (p : Nat) (ws : List Nat) :
    runAttempts p ws = ⟨ws.length, ws.length / p⟩ := by
  have h := runAttemptsFrom_spec p ws 0
  simpa [runAttempts, Nat.zero_div] using h

/-! ### Claim theorems -/

/-- C1: for every artifact text that splits into exactly 3 space-separated
fields, the match test of the worker loop returns a boolean that is true iff
the ASCII-lowercased second field contains at least one configured search term
as a substring (so the match is case-insensitive), false otherwise, and the
first matching term in the configured order short-circuits the scan. -/
theorem c1_match_predicate (terms : List (List Char)) (content : List Char)
    (h3 : (splitChar ' ' content).length = 3) :
    matchTest terms content =
      Except.ok ((firstMatch (secondFieldLower content) terms).isSome) ∧
    (matchTest terms content = Except.ok true ↔
      ∃ t ∈ terms, ∃ pre post, secondFieldLower content = pre ++ t ++ post) ∧
    (matchTest terms content = Except.ok false ↔
      ¬ ∃ t ∈ terms, ∃ pre post, secondFieldLower content = pre ++ t ++ post) ∧
    (∀ l₁ t l₂, terms = l₁ ++ t :: l₂ →
      (∀ u ∈ l₁, containsSub (secondFieldLower content) u = false) →
      containsSub (secondFieldLower content) t = true →
      firstMatch (secondFieldLower content) terms = some t) := by
  have hmt : matchTest terms content =
      Except.ok ((firstMatch (secondFieldLower content) terms).isSome) := by
    unfold matchTest
    rw [if_neg (by simp [h3])]
    rfl
  refine ⟨hmt, ?_, ?_, ?_⟩
  · rw [hmt]
    simp only [Except.ok.injEq, firstMatch_isSome_iff, containsSub_iff]
  · rw [hmt]
    simp only [Except.ok.injEq, Bool.eq_false_iff, ne_eq, firstMatch_isSome_iff, containsSub_iff]
  · rintro l₁ t l₂ rfl hskip ht
    exact firstMatch_first _ _ _ _ hskip ht

/-- C1 witness: the spec's case-insensitivity example — term `abc` matches an
artifact whose second field is `AbCdEf`. -/
theorem c1_match_predicate_witness :
    matchTest ["abc".toList] "x AbCdEf y".toList = Except.ok true :=
  ((c1_match_predicate ["abc".toList] "x AbCdEf y".toList (by decide)).2.1).mpr
    ⟨"abc".toList, by simp, [], "def".toList, by decide⟩

/-- C2: the emptiness check of main is dead code — splitting any search string
on commas yields at least one piece, so the empty search string produces the
single empty term and is accepted by the validation instead of being rejected
before the workers spawn. -/
theorem c2_empty_search_accepted :
    (∀ s : List Char, 0 < (splitChar ',' s).length) ∧
    splitChar ',' "".toList = [[]] ∧
    validateSearch "".toList = ConfigResult.ok [[]] :=
  ⟨splitChar_length_pos ',', by decide, by decide⟩

/-- C3: the validation only rejects a term when it is non-ASCII and has a
non-alphanumeric character, so the all-ASCII term `ab-c` containing `-` passes
validation and the configuration is accepted, not rejected. -/
theorem c3_ascii_nonalnum_accepted :
    validateSearch "ab-c".toList = ConfigResult.ok ["ab-c".toList] ∧
    rustIsAlphanumeric (Char.ofNat 45) = false ∧
    strIsAscii "ab-c".toList = true := by
  refine ⟨by decide, by decide, by decide⟩

/-- C9: for every artifact text whose space-split field count is not exactly 3,
the match test panics with the format-error message and never returns a
boolean, and the worker iteration aborts with that panic. -/
theorem c9_format_error (terms : List (List Char)) (content : List Char)
    (h3 : (splitChar ' ' content).length ≠ 3) :
    matchTest terms content = Except.error "key does not have 3 parts how" ∧
    (∀ b : Bool, matchTest terms content ≠ Except.ok b) ∧
    (∀ pe num ctr : Nat,
      (guessIter terms pe num false ctr content).result =
        IterResult.panicked "key does not have 3 parts how") := by
  have herr : matchTest terms content = Except.error "key does not have 3 parts how" := by
    unfold matchTest
    rw [if_pos h3]
  refine ⟨herr, ?_, ?_⟩
  · intro b h
    rw [herr] at h
    exact Except.noConfusion h
  · intro pe num ctr
    simp only [guessIter]
    rw [if_neg Bool.false_ne_true, if_pos h3]

/-- C9 witness: a one-field artifact text is rejected with the format error. -/
theorem c9_format_error_witness :
    matchTest ["a".toList] "abcd".toList = Except.error "key does not have 3 parts how" :=
  (c9_format_error ["a".toList] "abcd".toList (by decide)).1

/-- C4 counterexample: when the private-artifact copy fails, main propagates
the error immediately (the `?` operator) and the public-artifact copy is never
attempted, refuting the claim that the public copy is still attempted. -/
theorem c4_counterexample :
    CopyOp.pub ∉ (persistWinner (Except.error "copy failed") (Except.ok ())).1 ∧
    (persistWinner (Except.error "copy failed") (Except.ok ())).2 =
      Except.error "copy failed" :=
  ⟨by decide, rfl⟩

/-- C4 (amended): the private artifact is always copied first, and the public
artifact is copied to `<output>.pub` exactly when the private copy succeeded;
if the private copy fails, its error is propagated at once and the public copy
is not attempted. -/
theorem c4_persist_order (privRes pubRes : Except String Unit) :
    (persistWinner privRes pubRes).1.head? = some CopyOp.priv ∧
    (CopyOp.pub ∈ (persistWinner privRes pubRes).1 ↔ ∃ u, privRes = Except.ok u) ∧
    (∀ e, privRes = Except.error e →
      persistWinner privRes pubRes = ([CopyOp.priv], Except.error e)) := by
  cases privRes with
  | error e => cases pubRes <;> simp [persistWinner]
  | ok u => cases pubRes <;> simp [persistWinner]

/-- C4 witness: a failing private copy yields exactly one attempted copy and
propagates the failure. -/
theorem c4_persist_order_witness :
    persistWinner (Except.error "disk full") (Except.ok ()) =
      ([CopyOp.priv], Except.error "disk full") :=
  (c4_persist_order (Except.error "disk full") (Except.ok ())).2.2 "disk full" rfl

/-- C5 counterexample: in a concrete matching iteration the effect trace is the
key generation, then the result-channel send, then the flag write — the flag
write does not precede the send, refuting the claimed order of effects. -/
theorem c5_counterexample :
    (guessIter ["ab".toList] 100 0 false 0 "x ABc y".toList).effects =
      [Effect.keygen, Effect.send 0, Effect.setFlagTrue] ∧
    ¬ ((guessIter ["ab".toList] 100 0 false 0 "x ABc y".toList).effects.indexOf
          Effect.setFlagTrue <
        (guessIter ["ab".toList] 100 0 false 0 "x ABc y".toList).effects.indexOf
          (Effect.send 0)) :=
  ⟨by decide, by decide⟩

/-- C5 (amended): in the worker loop's matching branch the worker first sends
its slot index on the Result Channel and then writes the Termination Signal to
true, before stopping — the channel send precedes the flag write in the
sequence of effects of a successful attempt. -/
theorem c5_send_then_flag (terms : List (List Char)) (pe num ctr : Nat)
    (content : List Char) (h3 : (splitChar ' ' content).length = 3)
    (hm : matchTest terms content = Except.ok true) :
    (guessIter terms pe num false ctr content).effects =
      [Effect.keygen, Effect.send num, Effect.setFlagTrue] ∧
    (guessIter terms pe num false ctr content).result = IterResult.stopped ∧
    (guessIter terms pe num false ctr content).flag = true := by
  have hmt : matchTest terms content =
      Except.ok ((firstMatch (secondFieldLower content) terms).isSome) := by
    unfold matchTest
    rw [if_neg (by simp [h3])]
    rfl
  rw [hmt] at hm
  rw [guessIter_match terms pe num ctr content h3 (Except.ok.inj hm)]
  exact ⟨rfl, rfl, rfl⟩

/-- C5 witness: a concrete matching attempt of slot 3 sends then sets the
flag and stops. -/
theorem c5_send_then_flag_witness :
    (guessIter ["ab".toList] 100 3 false 5 "x ABc y".toList).effects =
      [Effect.keygen, Effect.send 3, Effect.setFlagTrue] :=
  (c5_send_then_flag ["ab".toList] 100 3 5 "x ABc y".toList (by decide) rfl).1

/-- C6: after exactly k * printEvery recorded failed attempts (k ≥ 1,
printEvery > 0) the aggregate counter equals the total number of recorded
attempts and exactly k progress reports have been emitted, regardless of which
worker recorded each attempt. -/
theorem c6_progress_tracker (p k : Nat) (ws : List Nat)
    (hp : 0 < p) (_hk : 1 ≤ k) (hlen : ws.length = k * p) :
    (runAttempts p ws).counter = ws.length ∧ (runAttempts p ws).reports = k := by
  rw [runAttempts_spec]
  refine ⟨rfl, ?_⟩
  rw [hlen]
  exact Nat.mul_div_cancel k hp

/-- C6 witness: two recorded attempts at interval 2 give counter 2 and one
report. -/
theorem c6_progress_tracker_witness :
    (runAttempts 2 [3, 5]).counter = [3, 5].length ∧ (runAttempts 2 [3, 5]).reports = 1 :=
  c6_progress_tracker 2 1 [3, 5] (by decide) (by decide) (by decide)

/-- C7: the termination flag starts false and is monotone — an iteration
entered with the flag true returns immediately with no side effects at all
(in particular no key-generator invocation) and leaves flag and counter
untouched, an iteration never turns a true flag false, and any interleaved
sequence of worker iterations entered with the flag true keeps it true for
the rest of the run. -/
theorem c7_flag_monotone :
    initialFinished = false ∧
    (∀ (terms : List (List Char)) (pe num ctr : Nat) (content : List Char),
      guessIter terms pe num true ctr content = ⟨true, ctr, [], IterResult.stopped⟩) ∧
    (∀ (terms : List (List Char)) (pe num : Nat) (flag : Bool) (ctr : Nat)
        (content : List Char),
      flag = true → (guessIter terms pe num flag ctr content).flag = true) ∧
    (∀ (steps : List StepIn) (ctr : Nat), sysRun steps true ctr = (true, ctr)) := by
  refine ⟨rfl, fun terms pe num ctr content => rfl, ?_, ?_⟩
  · rintro terms pe num flag ctr content rfl
    rfl
  · intro steps
    induction steps with
    | nil => intro ctr; rfl
    | cons s rest ih =>
      intro ctr
      simp only [sysRun, guessIter_finished]
      exact ih ctr

/-- C7 witness: a worker seeing the flag true keeps it true, and a run started
with the flag true ends with it true and the counter unchanged. -/
theorem c7_flag_monotone_witness :
    (guessIter ["zz".toList] 100 0 true 7 "x ab c".toList).flag = true ∧
    sysRun [⟨["zz".toList], 100, 0, "x ab c".toList⟩] true 7 = (true, 7) :=
  ⟨c7_flag_monotone.2.2.1 ["zz".toList] 100 0 true 7 "x ab c".toList rfl,
    c7_flag_monotone.2.2.2 [⟨["zz".toList], 100, 0, "x ab c".toList⟩] 7⟩

/-- C8: a failed attempt deletes both artifact files and increments the
aggregate counter before the next iteration; a successful (matching) attempt
deletes neither file, leaves the counter unchanged, and returns with the two
files in place. -/
theorem c8_cleanup_frame (terms : List (List Char)) (pe num ctr : Nat)
    (content : List Char) (h3 : (splitChar ' ' content).length = 3) :
    (matchTest terms content = Except.ok true →
      guessIter terms pe num false ctr content =
        ⟨true, ctr, [Effect.keygen, Effect.send num, Effect.setFlagTrue],
          IterResult.stopped⟩) ∧
    (matchTest terms content = Except.ok false →
      Effect.deletePub num ∈ (guessIter terms pe num false ctr content).effects ∧
      Effect.deletePriv num ∈ (guessIter terms pe num false ctr content).effects ∧
      (guessIter terms pe num false ctr content).counter = ctr + 1 ∧
      (guessIter terms pe num false ctr content).result = IterResult.again) := by
  have hmt : matchTest terms content =
      Except.ok ((firstMatch (secondFieldLower content) terms).isSome) := by
    unfold matchTest
    rw [if_neg (by simp [h3])]
    rfl
  constructor
  · intro hm
    rw [hmt] at hm
    exact guessIter_match terms pe num ctr content h3 (Except.ok.inj hm)
  · intro hm
    rw [hmt] at hm
    have hnone : firstMatch (secondFieldLower content) terms = none :=
      Option.not_isSome_iff_eq_none.mp (by simp [Except.ok.inj hm])
    rw [guessIter_nomatch terms pe num ctr content h3 hnone]
    by_cases hb : (ctr + 1) % pe = 0 <;> simp [hb]

/-- C8 witness: a concrete failed attempt of slot 1 deletes both files,
increments the counter, and loops again. -/
theorem c8_cleanup_frame_witness :
    Effect.deletePub 1 ∈ (guessIter ["zz".toList] 100 1 false 4 "x ab c".toList).effects ∧
    Effect.deletePriv 1 ∈ (guessIter ["zz".toList] 100 1 false 4 "x ab c".toList).effects ∧
    (guessIter ["zz".toList] 100 1 false 4 "x ab c".toList).counter = 4 + 1 ∧
    (guessIter ["zz".toList] 100 1 false 4 "x ab c".toList).result = IterResult.again :=
  (c8_cleanup_frame ["zz".toList] 100 1 4 "x ab c".toList (by decide)).2 rfl

/-- C10 counterexample: the search input with components `€` and the empty
string contains an empty comma-separated component, yet the validation rejects
it — the `€` component is non-ASCII and non-alphanumeric — so the validation
does not accept every input containing an empty component. -/
theorem c10_counterexample :
    [] ∈ splitChar ',' "€,".toList ∧
    validateSearch "€,".toList =
      ConfigResult.exitError "make sure your search terms are alphanumeric" :=
  ⟨by decide, by decide⟩

/-- C10 (amended): a search input containing an empty comma-separated component
(for example a trailing comma or two consecutive commas) whose components are
all ASCII is accepted by the validation; the resulting term list contains the
empty term, the match test then returns true for every well-formed 3-field
artifact text (the empty string is a substring of every string), and the very
first completed attempt of any worker takes the matching branch: it sends its
slot index and stops. -/
theorem c10_empty_term_matches_all (search : List Char)
    (hempty : [] ∈ splitChar ',' search)
    (hascii : ∀ item ∈ splitChar ',' search, strIsAscii item = true) :
    validateSearch search =
      ConfigResult.ok ((splitChar ',' search).map (fun s => s.map asciiLower)) ∧
    [] ∈ (splitChar ',' search).map (fun s => s.map asciiLower) ∧
    (∀ (terms : List (List Char)) (content : List Char), [] ∈ terms →
      (splitChar ' ' content).length = 3 → matchTest terms content = Except.ok true) ∧
    (∀ (terms : List (List Char)) (pe num ctr : Nat) (content : List Char), [] ∈ terms →
      (splitChar ' ' content).length = 3 →
      guessIter terms pe num false ctr content =
        ⟨true, ctr, [Effect.keygen, Effect.send num, Effect.setFlagTrue],
          IterResult.stopped⟩) := by
  refine ⟨?_, ?_, ?_, ?_⟩
  · have hval : (splitChar ',' search).any
        (fun item => !strIsAscii item && item.any (fun c => !rustIsAlphanumeric c)) = false := by
      rw [List.any_eq_false]
      intro item hitem
      simp [hascii item hitem]
    simp only [validateSearch]
    rw [if_neg (by have := splitChar_length_pos ',' search; omega),
      if_neg (by simp [hval])]
  · exact List.mem_map.mpr ⟨[], hempty, rfl⟩
  · intro terms content hmem h3
    have hsome : (firstMatch (List.map asciiLower ((splitChar ' ' content).getD 1 []))
        terms).isSome = true :=
      (firstMatch_isSome_iff _ _).mpr ⟨[], hmem, containsSub_nil_needle _⟩
    unfold matchTest
    rw [if_neg (by simp [h3]), hsome]
  · intro terms pe num ctr content hmem h3
    exact guessIter_match terms pe num ctr content h3
      ((firstMatch_isSome_iff _ _).mpr ⟨[], hmem, containsSub_nil_needle _⟩)

/-- C10 witness: the ASCII search input with a trailing comma is accepted and
its term list is the lowercased split. -/
theorem c10_empty_term_matches_all_witness :
    validateSearch "a,".toList =
      ConfigResult.ok ((splitChar ',' "a,".toList).map (fun s => s.map asciiLower)) :=
  (c10_empty_term_matches_all "a,".toList (by decide) (by decide)).1

end Bruter
